import Mathlib

/-!
Verification development for the Local_MCP repository: a shallow embedding of
the MCP client orchestration core (client.py) and the Task Tracker server
tools (server.py), together with theorems settling the specification claims.

Strings are modelled as Lean strings; character-level processing is done on
the underlying character lists, mirroring the Python string operations used
by the source (strip, lower, split, substring membership, re.sub with the
concrete patterns appearing in the source).
-/

namespace LocalMCP

/-! ## Python string primitives -/

/-- Python whitespace characters as used by str.strip and regex class \s
(restricted to the ASCII range, which is all the source manipulates). -/
def pySpace (c : Char) : Bool :=
  c = ' ' || c = '\t' || c = '\n' || c = '\r' || c = '\x0b' || c = '\x0c'

/-- ASCII lowercasing of a single character, as Python str.lower on ASCII. -/
def lowerChar : Char → Char
  | 'A' => 'a' | 'B' => 'b' | 'C' => 'c' | 'D' => 'd' | 'E' => 'e'
  | 'F' => 'f' | 'G' => 'g' | 'H' => 'h' | 'I' => 'i' | 'J' => 'j'
  | 'K' => 'k' | 'L' => 'l' | 'M' => 'm' | 'N' => 'n' | 'O' => 'o'
  | 'P' => 'p' | 'Q' => 'q' | 'R' => 'r' | 'S' => 's' | 'T' => 't'
  | 'U' => 'u' | 'V' => 'v' | 'W' => 'w' | 'X' => 'x' | 'Y' => 'y'
  | 'Z' => 'z'
  | c => c

/-- Python str.lower on a character list. -/
def pyLower (l : List Char) : List Char := l.map lowerChar

/-- Python str.strip with no argument: drop whitespace from both ends. -/
def pyStrip (l : List Char) : List Char :=
  ((l.dropWhile pySpace).reverse.dropWhile pySpace).reverse

/-- Plain (case-sensitive) prefix test on character lists. -/
def startsWith : List Char → List Char → Bool
  | [], _ => true
  | _ :: _, [] => false
  | p :: ps, c :: cs => (c = p) && startsWith ps cs

/-- Python substring membership (the in operator): pat occurs somewhere in s. -/
def containsSub (pat : List Char) : List Char → Bool
  | [] => pat.isEmpty
  | c :: cs => startsWith pat (c :: cs) || containsSub pat cs

/-- Case-insensitive prefix test: the pattern is given already lowercased and
each text character is lowercased before comparison. -/
def startsWithCI : List Char → List Char → Bool
  | [], _ => true
  | _ :: _, [] => false
  | p :: ps, c :: cs => (lowerChar c = p) && startsWithCI ps cs

/-- Python str.split on a single newline character. -/
def splitNL : List Char → List (List Char)
  | [] => [[]]
  | c :: rest =>
    match splitNL rest with
    | [] => [[c]]
    | h :: t => if c = '\n' then [] :: h :: t else (c :: h) :: t

/-- Inverse of splitNL: join lines with a newline. -/
def joinNL (ls : List (List Char)) : List Char := List.intercalate ['\n'] ls

/-! ## Task Tracker server (server.py) -/

/-- The status column of a task; the tasks table CHECK constraint restricts
the status field to these three values. -/
inductive TaskStatus
  | todo
  | in_progress
  | done
deriving DecidableEq, Repr

/-- One row of the tasks table. -/
structure Task where
  id : Int
  title : String
  description : String
  status : TaskStatus
deriving DecidableEq, Repr

/-- The rendering of a status used by the move_task confirmation message. -/
def statusLabel : TaskStatus → String
  | .todo => "📝 Todo"
  | .in_progress => "🚀 In Progress"
  | .done => "✅ Done"

/-- The status text used when storing a task. -/
def statusText : TaskStatus → String
  | .todo => "todo"
  | .in_progress => "in_progress"
  | .done => "done"

/-- SELECT ... WHERE id = ? fetchone over the tasks table. -/
def findTask (db : List Task) (task_id : Int) : Option Task :=
  db.find? (fun t => t.id = task_id)

/-- The not-found message produced by move_task and delete_task. -/
def notFoundMsg (task_id : Int) : String :=
  "❌ Task #" ++ toString task_id ++ " not found."

/-- move_task from server.py: look the task up by id; when absent return the
not-found message and leave the table unchanged, otherwise update the status
of every row with that id (the primary key makes it at most one). -/
def move_task (db : List Task) (task_id : Int) (new_status : TaskStatus) :
    String × List Task :=
  match findTask db task_id with
  | none => (notFoundMsg task_id, db)
  | some row =>
    ("✅ Task #" ++ toString task_id ++ " moved!\n\n" ++ row.title ++ "\n" ++
       statusLabel row.status ++ " → " ++ statusLabel new_status,
     db.map (fun t => if t.id = task_id then { t with status := new_status } else t))

/-- delete_task from server.py: look the task up by id; when absent return the
not-found message and leave the table unchanged, otherwise delete every row
with that id. -/
def delete_task (db : List Task) (task_id : Int) : String × List Task :=
  match findTask db task_id with
  | none => (notFoundMsg task_id, db)
  | some row =>
    ("🗑️ Task deleted!\n\nID: #" ++ toString row.id ++ "\nTitle: " ++ row.title,
     db.filter (fun t => t.id ≠ task_id))

/-! ## Tool-output rendering (client.py, format of tool results) -/

/-- One element of a list-shaped tool output: either an object carrying a
text attribute, or anything else (rendered through str). -/
inductive OutItem
  | textItem (t : String)
  | otherItem (s : String)
deriving DecidableEq, Repr

/-- The shape of a tool output value as discriminated by the source:
Python None, a list of content items, or any other value (via str). -/
inductive ToolOut
  | nothing
  | items (l : List OutItem)
  | plain (s : String)
deriving DecidableEq, Repr

/-- The str rendering of one list item used when building parts. -/
def outItemText : OutItem → String
  | .textItem t => t
  | .otherItem s => s

/-- format_tool_output from client.py: None becomes the empty string; a list
becomes its items joined by newlines (or the str of the empty list when the
list has no items); anything else is rendered by str. -/
def format_tool_output : ToolOut → String
  | .nothing => ""
  | .items l =>
    match l with
    | [] => "[]"
    | x :: xs => String.intercalate "\n" ((x :: xs).map outItemText)
  | .plain s => s

/-! ## Agent-response rendering (client.py, format_agent_response)

Each regex substitution of the source is embedded as a deterministic
character-list transform with exactly the matching semantics of the concrete
pattern (anchored patterns replace at most the start of the line; the global
bold-pair substitution scans left to right without rescanning replacements;
the non-greedy group takes the shortest nonempty span followed by a closing
pair of asterisks). -/

/-- Fuel-indexed worker for the case-insensitive literal replace-all. The
fuel only drives structural recursion; with fuel at least the text length
the result does not depend on it. On a match the matched span (the pattern
length) is skipped, so replacements are never rescanned. -/
def replaceAllCIAux (pat repl : List Char) : Nat → List Char → List Char
  | _, [] => []
  | 0, l => l
  | fuel + 1, c :: rest =>
    if startsWithCI pat (c :: rest) && !pat.isEmpty then
      repl ++ replaceAllCIAux pat repl fuel (List.drop (pat.length - 1) rest)
    else
      c :: replaceAllCIAux pat repl fuel rest

/-- Case-insensitive literal replace-all, leftmost non-overlapping, matching
Python re.sub on a literal pattern with the IGNORECASE flag. The pattern is
given lowercased. Replacements are not rescanned. -/
def replaceAllCI (pat repl l : List Char) : List Char :=
  replaceAllCIAux pat repl l.length l

/-- Locate the shortest nonempty group followed by a closing pair of
asterisks: the semantics of the non-greedy fragment matching one or more
characters followed by two asterisk characters. Returns the group and the
text after the closing pair. -/
def findClose : List Char → Option (List Char × List Char)
  | [] => none
  | c :: rest =>
    if startsWith ['*', '*'] rest then some ([c], rest.drop 2)
    else (findClose rest).map (fun p => (c :: p.1, p.2))

/-- Fuel-indexed worker for the global bold substitution; with fuel at
least the text length the result does not depend on it. -/
def boldSubAux : Nat → List Char → List Char
  | _, [] => []
  | 0, l => l
  | fuel + 1, c :: rest =>
    if startsWith ['*', '*'] (c :: rest) then
      match findClose (List.drop 1 rest) with
      | some (g, r) => g ++ boldSubAux fuel r
      | none => c :: boldSubAux fuel rest
    else c :: boldSubAux fuel rest

/-- The global bold substitution: every occurrence of a pair of asterisks,
a shortest nonempty group, and a closing pair of asterisks is replaced by
the group alone; scanning is left to right and replacements are not
rescanned. Where no close exists the scan advances one character. -/
def boldSub (l : List Char) : List Char :=
  boldSubAux l.length l

/-- The anchored substitution turning a bold-task list item with a numbered
tag into a bullet: leading whitespace, a dash or asterisk marker, optional
whitespace, a bold group holding an optional hash sign and digits, an
optional colon, optional whitespace, and a second bold group; replaced by
the leading whitespace, a bullet, the number and the second group, with the
unmatched suffix kept. No match leaves the line unchanged. -/
def rule2 (l : List Char) : List Char :=
  let ws := l.takeWhile pySpace
  match l.dropWhile pySpace with
  | [] => l
  | m :: u =>
    if m = '-' || m = '*' then
      match u.dropWhile pySpace with
      | '*' :: '*' :: v1 =>
        let v2 := match v1 with | '#' :: w => w | w => w
        let ds := v2.takeWhile Char.isDigit
        if ds = [] then l
        else
          match v2.dropWhile Char.isDigit with
          | '*' :: '*' :: v4 =>
            let v5 := match v4 with | ':' :: w => w | w => w
            match v5.dropWhile pySpace with
            | '*' :: '*' :: v7 =>
              match findClose v7 with
              | some (g, r) => ws ++ ("   • #").data ++ ds ++ ("  ").data ++ g ++ r
              | none => l
            | _ => l
          | _ => l
      | _ => l
    else l

/-- The anchored substitution turning a bold list item into a bullet:
leading whitespace, a dash or asterisk marker, optional whitespace and a
bold group; replaced by the leading whitespace, a bullet and the group,
with the unmatched suffix kept. -/
def rule3 (l : List Char) : List Char :=
  let ws := l.takeWhile pySpace
  match l.dropWhile pySpace with
  | [] => l
  | m :: u =>
    if m = '-' || m = '*' then
      match u.dropWhile pySpace with
      | '*' :: '*' :: w =>
        match findClose w with
        | some (g, r) => ws ++ ("   • ").data ++ g ++ r
        | none => l
      | _ => l
    else l

/-- The anchored substitution turning a plain list item into a bullet:
leading whitespace, a dash or asterisk marker, at least one whitespace
character, and a nonempty rest. The greedy whitespace run backtracks by one
character when nothing would remain for the rest. -/
def rule4 (l : List Char) : List Char :=
  let ws := l.takeWhile pySpace
  match l.dropWhile pySpace with
  | [] => l
  | m :: u =>
    if m = '-' || m = '*' then
      let w2 := u.takeWhile pySpace
      let v := u.dropWhile pySpace
      if w2 = [] then l
      else if v ≠ [] then ws ++ ("   • ").data ++ v
      else if 2 ≤ w2.length then ws ++ ("   • ").data ++ [w2.getLastD ' ']
      else l
    else l

/-- The anchored substitution turning a numbered list item into a bullet:
leading whitespace, digits, a dot, at least one whitespace character and a
nonempty rest, with the same backtracking as the plain list rule. -/
def rule5 (l : List Char) : List Char :=
  let ws := l.takeWhile pySpace
  let t := l.dropWhile pySpace
  let ds := t.takeWhile Char.isDigit
  if ds = [] then l
  else
    match t.dropWhile Char.isDigit with
    | '.' :: u =>
      let w2 := u.takeWhile pySpace
      let v := u.dropWhile pySpace
      if w2 = [] then l
      else if v ≠ [] then ws ++ ("   • ").data ++ v
      else if 2 ≤ w2.length then ws ++ ("   • ").data ++ [w2.getLastD ' ']
      else l
    | _ => l

/-- One line of the response pipeline: the three case-insensitive bold
section headers, the four anchored list rules, the placeholder rewrite and
the final global bold removal, in source order. -/
def processLine (l : List Char) : List Char :=
  let l1 := replaceAllCI (("**todo**").data) (("Todo").data) l
  let l2 := replaceAllCI (("**in progress**").data) (("In Progress").data) l1
  let l3 := replaceAllCI (("**done**").data) (("Done").data) l2
  let l4 := rule2 l3
  let l5 := rule3 l4
  let l6 := rule4 l5
  let l7 := rule5 l6
  let l8 := replaceAllCI (("(none)").data) (("(no tasks)").data) l7
  boldSub l8

/-- format_agent_response from client.py: empty or all-whitespace text is
returned unchanged; otherwise the text is stripped, split into lines, each
line is processed, and the lines are rejoined. -/
def format_agent_response (text : String) : String :=
  if pyStrip text.data = [] then text
  else ⟨joinNL ((splitNL (pyStrip text.data)).map processLine)⟩

/-! ## Turn handling (client.py, handle_user_message) -/

/-- The events surfaced by the agent workflow stream during one turn, as
discriminated by exact type checks in the source. -/
inductive AgentEvent
  | toolCall (name : String) (kwargs : String)
  | toolCallResult (name : String) (output : ToolOut)
  | other
deriving DecidableEq, Repr

/-- Python set.add on the model of a set of tool names. -/
def setInsert (s : List String) (n : String) : List String :=
  if n ∈ s then s else s ++ [n]

/-- One step of the event-stream fold of handle_user_message: the last tool
output is recorded on every tool result event, while a tool name is added
to the called set only inside the verbose branch, exactly as in the
source. -/
def observeStep (verbose : Bool) (acc : Option ToolOut × List String)
    (e : AgentEvent) : Option ToolOut × List String :=
  match e with
  | .toolCall n _ => if verbose then (acc.1, setInsert acc.2 n) else acc
  | .toolCallResult _ o => (some o, acc.2)
  | .other => acc

/-- The event-stream fold of handle_user_message over a whole turn. -/
def observeEvents (verbose : Bool) (events : List AgentEvent) :
    Option ToolOut × List String :=
  events.foldl (observeStep verbose) (none, [])

/-- One step of tracking the most recent tool result output. -/
def lastStep (acc : Option ToolOut) (e : AgentEvent) : Option ToolOut :=
  match e with
  | .toolCallResult _ o => some o
  | _ => acc

/-- The output of the most recent tool result event of the turn, if any. -/
def lastToolOutput (events : List AgentEvent) : Option ToolOut :=
  events.foldl lastStep none

/-- handle_user_message from client.py: fold the event stream, then take the
stripped final response text; when it is empty and some tool produced an
output, substitute the rendering of the last tool output. Returns the
response text and the recorded tool-name set. -/
def handle_user_message (verbose : Bool) (events : List AgentEvent)
    (response : Option String) : String × List String :=
  let obs := observeEvents verbose events
  let responseStr : List Char :=
    match response with
    | none => []
    | some s => pyStrip s.data
  let final : List Char :=
    if responseStr = [] then
      match obs.1 with
      | some o => (format_tool_output o).data
      | none => responseStr
    else responseStr
  (⟨final⟩, obs.2)

/-! ## The claims-vs-actions warning and per-turn output (client.py loop) -/

/-- The Task Tracker tool names from client.py. -/
def TASK_TRACKER_TOOLS : List String :=
  [("add_task"), ("list_tasks"), ("move_task"), ("delete_task")]

/-- The claimed-external-action text pattern of the warning check: the
lowercased rendered text mentions a posting or sending phrase and the word
channel. -/
def claimedActionPattern (formatted : String) : Bool :=
  let lw := pyLower formatted.data
  (containsSub (("posted").data) lw || containsSub (("sent").data) lw ||
    containsSub (("in the #").data) lw) &&
  containsSub (("channel").data) lw

/-- The condition under which the interactive loop prints the
claims-vs-actions warning: nonblank rendered text, a nonempty called-tool
set contained in the Task Tracker tool set, and the claimed-action pattern,
exactly as in the source. -/
def claimsWarningEmitted (formatted : String) (toolsCalled : List String) : Bool :=
  !(pyStrip formatted.data).isEmpty &&
  !toolsCalled.isEmpty &&
  toolsCalled.all (fun t => TASK_TRACKER_TOOLS.contains t) &&
  claimedActionPattern formatted

/-- The observable lines the loop prints for one completed turn. -/
inductive OutLine
  | response (s : String)
  | noResponseHint
  | claimsWarning
  | errorLine (e : String)
  | bye
deriving DecidableEq, Repr

/-- The loop body output for one successful turn: the rendered response (or
the hint when it is blank), followed by the warning when its condition
holds. -/
def turnOutputs (response : String) (toolsCalled : List String) : List OutLine :=
  let formatted := format_agent_response response
  (if (pyStrip formatted.data).isEmpty then [OutLine.noResponseHint]
   else [OutLine.response formatted]) ++
  (if claimsWarningEmitted formatted toolsCalled then [OutLine.claimsWarning] else [])

/-- The words that end the session, compared against the lowercased
stripped input. -/
def exitWords : List String := [("exit"), ("quit"), ("q")]

/-- One element of the user input stream: a line, or an interrupt or end of
input at the prompt. -/
inductive UserInput
  | line (s : String)
  | interrupt
deriving DecidableEq, Repr

/-- The interactive loop of run_client: strip each line; skip blank input;
stop on an exit word or interrupt; otherwise run the turn, print its
outputs, and on a per-turn error print an inline error line and continue. -/
def runLoop (turn : String → Except String (String × List String)) :
    List UserInput → List OutLine
  | [] => []
  | .interrupt :: _ => [OutLine.bye]
  | .line s :: rest =>
    let u : String := ⟨pyStrip s.data⟩
    if u = "" then runLoop turn rest
    else if (⟨pyLower u.data⟩ : String) ∈ exitWords then [OutLine.bye]
    else
      match turn u with
      | .error e => OutLine.errorLine e :: runLoop turn rest
      | .ok (resp, tools) => turnOutputs resp tools ++ runLoop turn rest

/-! ## Tool catalog construction (client.py, run_client) -/

/-- The result of querying one connected backend for its tool list: the
advertised tools, or a typed failure when the backend is unreachable. -/
abbrev BackendQuery : Type := Except String (List String)

/-- The catalog build of run_client: extend the tool list with each
backend's tools in order; the first failing query aborts construction as a
whole and no catalog value is produced. -/
def buildCatalog : List BackendQuery → Except String (List String)
  | [] => .ok []
  | q :: rest =>
    match q with
    | .error e => .error e
    | .ok ts =>
      match buildCatalog rest with
      | .error e => .error e
      | .ok acc => .ok (ts ++ acc)

/-- The tool count advertised by one backend query, for the success case. -/
def advertisedCount : BackendQuery → Nat
  | .ok ts => ts.length
  | .error _ => 0

/-! ## Sidecar supervision (client.py, Slack Docker lifecycle) -/

/-- What the external container launch would do when invoked: succeed,
fail because the launcher binary is missing, or fail with the given error
output text. -/
inductive LaunchOutcome
  | success
  | binaryMissing
  | failed (stderrText stdoutText : String)
deriving DecidableEq, Repr

/-- Externally visible actions of the sidecar supervisor. -/
inductive Act
  | dockerRun
  | dockerStartExisting
  | dockerStop
  | registerStopHook
deriving DecidableEq, Repr

/-- The name-conflict test of start_slack_docker: the lowercased stderr
concatenated with the lowercased stdout mentions a name already in use or a
conflict. -/
def conflictErr (stderrText stdoutText : String) : Bool :=
  let err := pyLower stderrText.data ++ pyLower stdoutText.data
  containsSub (("already in use").data) err || containsSub (("conflict").data) err

/-- start_slack_docker from client.py: a missing env file or launcher
binary or a non-conflict launch failure exits the process with a diagnostic
(modelled as an error); a name conflict triggers a non-fatal resume attempt
and reports that this call did not start the container; success reports
that it did. The action trace records the external invocations made. -/
def start_slack_docker (envFileOk : Bool) (outcome : LaunchOutcome) :
    Except String (Bool × List Act) :=
  if !envFileOk then .error "Slack env file not found"
  else
    match outcome with
    | .success => .ok (true, [Act.dockerRun])
    | .binaryMissing => .error "Docker not found"
    | .failed se so =>
      if conflictErr se so then .ok (false, [Act.dockerRun, Act.dockerStartExisting])
      else .error "Failed to start Slack Docker container"

/-- The state of the world the sidecar supervisor interacts with: whether
the health endpoint currently answers, whether the env file exists, what a
launch attempt would do, and whether the service becomes healthy within the
poll window after a launch attempt. -/
structure SlackWorld where
  reachable : Bool
  envFileOk : Bool
  outcome : LaunchOutcome
  becomesReady : Bool
deriving DecidableEq, Repr

/-- ensure_slack_docker_running from client.py: when the health check
succeeds on entry, report not-started immediately with no action and no
state change; otherwise attempt the launch and block until healthy or fail.
On success the world is reachable. Returns whether this call started the
container, the new world, and the action trace. -/
def ensure_slack_docker_running (w : SlackWorld) :
    Except String (Bool × SlackWorld × List Act) :=
  if w.reachable then .ok (false, w, [])
  else
    match start_slack_docker w.envFileOk w.outcome with
    | .error e => .error e
    | .ok (started, acts) =>
      if w.becomesReady then .ok (started, { w with reachable := true }, acts)
      else .error "Slack MCP server did not become ready in time."

/-- The sidecar prelude of run_client: when the auto-start flag and an env
file path are both present, run the supervisor and register the
shutdown-on-exit hook exactly when this call started the container. -/
def run_client_startup (startFlag : Bool) (haveEnvFile : Bool) (w : SlackWorld) :
    Except String (Bool × SlackWorld × List Act) :=
  if startFlag && haveEnvFile then
    match ensure_slack_docker_running w with
    | .error e => .error e
    | .ok (started, w2, acts) =>
      .ok (started, w2, acts ++ (if started then [Act.registerStopHook] else []))
  else .ok (false, w, [])

/-- The actions run at process exit: the registered hook stops the
container; without a hook nothing is stopped. -/
def sessionExitActs (startupActs : List Act) : List Act :=
  if Act.registerStopHook ∈ startupActs then [Act.dockerStop] else []

/-! ## Lemmas about the recursion workers -/

/-- The worker result does not depend on the fuel once it covers the text
length. -/
theorem replaceAllCIAux_fuel (pat repl : List Char) :
    ∀ f1 f2 l, l.length ≤ f1 → l.length ≤ f2 →
      replaceAllCIAux pat repl f1 l = replaceAllCIAux pat repl f2 l := by
  intro f1
  induction f1 with
  | zero =>
    intro f2 l hl _
    have hnil : l = [] := List.length_eq_zero.mp (Nat.le_zero.mp hl)
    subst hnil
    cases f2 <;> rfl
  | succ f1 ih =>
    intro f2 l hl1 hl2
    cases l with
    | nil => cases f2 <;> rfl
    | cons c rest =>
      cases f2 with
      | zero => simp at hl2
      | succ f2 =>
        rw [replaceAllCIAux, replaceAllCIAux]
        by_cases hc : (startsWithCI pat (c :: rest) && !pat.isEmpty) = true
        · rw [if_pos hc, if_pos hc]
          have hd : (List.drop (pat.length - 1) rest).length ≤ rest.length := by
            simp only [List.length_drop]
            omega
          have hrest1 : rest.length ≤ f1 := by
            simp only [List.length_cons] at hl1
            omega
          have hrest2 : rest.length ≤ f2 := by
            simp only [List.length_cons] at hl2
            omega
          rw [ih f2 (List.drop (pat.length - 1) rest) (le_trans hd hrest1) (le_trans hd hrest2)]
        · rw [if_neg hc, if_neg hc]
          have hrest1 : rest.length ≤ f1 := by
            simp only [List.length_cons] at hl1
            omega
          have hrest2 : rest.length ≤ f2 := by
            simp only [List.length_cons] at hl2
            omega
          rw [ih f2 rest hrest1 hrest2]

/-- One-step unfolding of replaceAllCI on a cons cell. -/
theorem replaceAllCI_cons (pat repl : List Char) (c : Char) (rest : List Char) :
    replaceAllCI pat repl (c :: rest) =
      if startsWithCI pat (c :: rest) && !pat.isEmpty then
        repl ++ replaceAllCI pat repl (List.drop (pat.length - 1) rest)
      else c :: replaceAllCI pat repl rest := by
  show replaceAllCIAux pat repl ((c :: rest).length) (c :: rest) = _
  simp only [List.length_cons]
  rw [replaceAllCIAux]
  by_cases hc : (startsWithCI pat (c :: rest) && !pat.isEmpty) = true
  · rw [if_pos hc, if_pos hc]
    have hd : (List.drop (pat.length - 1) rest).length ≤ rest.length := by
      simp only [List.length_drop]
      omega
    rw [replaceAllCIAux_fuel pat repl rest.length (List.drop (pat.length - 1) rest).length
      (List.drop (pat.length - 1) rest) hd (le_refl _)]
    rfl
  · rw [if_neg hc, if_neg hc]
    rfl

/-- The remainder returned by findClose is shorter than the input. -/
theorem findClose_length :
    ∀ l g r, findClose l = some (g, r) → r.length < l.length := by
  intro l
  induction l with
  | nil => intro g r h; simp [findClose] at h
  | cons c rest ih =>
    intro g r h
    by_cases hs : startsWith ['*', '*'] rest
    · simp [findClose, hs] at h
      have : r = rest.drop 2 := h.2.symm
      subst this
      simp only [List.length_drop, List.length_cons]
      omega
    · rw [findClose, if_neg hs] at h
      cases ho : findClose rest with
      | none => rw [ho] at h; simp at h
      | some p =>
        rw [ho] at h
        simp at h
        have hlt := ih p.1 p.2 (by rw [ho])
        have hr : r = p.2 := h.2.symm
        rw [hr]
        simp only [List.length_cons]
        omega

/-- The bold worker result does not depend on the fuel once it covers the
text length. -/
theorem boldSubAux_fuel :
    ∀ f1 f2 l, l.length ≤ f1 → l.length ≤ f2 →
      boldSubAux f1 l = boldSubAux f2 l := by
  intro f1
  induction f1 with
  | zero =>
    intro f2 l hl _
    have hnil : l = [] := List.length_eq_zero.mp (Nat.le_zero.mp hl)
    subst hnil
    cases f2 <;> rfl
  | succ f1 ih =>
    intro f2 l hl1 hl2
    cases l with
    | nil => cases f2 <;> rfl
    | cons c rest =>
      cases f2 with
      | zero => simp at hl2
      | succ f2 =>
        rw [boldSubAux, boldSubAux]
        simp only [List.length_cons] at hl1 hl2
        by_cases hs : startsWith ['*', '*'] (c :: rest) = true
        · rw [if_pos hs, if_pos hs]
          cases hf : findClose (List.drop 1 rest) with
          | none =>
            rw [ih f2 rest (by omega) (by omega)]
          | some p =>
            obtain ⟨g, r⟩ := p
            have hlt := findClose_length _ _ _ hf
            have hdl : (List.drop 1 rest).length ≤ rest.length := by
              simp only [List.length_drop]
              omega
            show g ++ boldSubAux f1 r = g ++ boldSubAux f2 r
            rw [ih f2 r (by omega) (by omega)]
        · rw [if_neg hs, if_neg hs]
          rw [ih f2 rest (by omega) (by omega)]

/-- One-step unfolding of boldSub on a cons cell. -/
theorem boldSub_cons (c : Char) (rest : List Char) :
    boldSub (c :: rest) =
      if startsWith ['*', '*'] (c :: rest) then
        match findClose (List.drop 1 rest) with
        | some (g, r) => g ++ boldSub r
        | none => c :: boldSub rest
      else c :: boldSub rest := by
  show boldSubAux ((c :: rest).length) (c :: rest) = _
  simp only [List.length_cons]
  rw [boldSubAux]
  by_cases hs : startsWith ['*', '*'] (c :: rest) = true
  · rw [if_pos hs, if_pos hs]
    cases hf : findClose (List.drop 1 rest) with
    | none => rfl
    | some p =>
      obtain ⟨g, r⟩ := p
      have hlt := findClose_length _ _ _ hf
      have hdl : (List.drop 1 rest).length ≤ rest.length := by
        simp only [List.length_drop]
        omega
      show g ++ boldSubAux rest.length r = g ++ boldSub r
      rw [boldSubAux_fuel rest.length r.length r (by omega) (le_refl _)]
      rfl
  · rw [if_neg hs, if_neg hs]
    rfl

/-! ## Character-level helper lemmas -/

/-- Lowercasing does not change whether a character is whitespace. -/
theorem pySpace_lowerChar (c : Char) : pySpace (lowerChar c) = pySpace c := by
  unfold lowerChar
  split <;> first | rfl | decide

/-- Only the asterisk lowercases to an asterisk. -/
theorem lowerChar_eq_star (c : Char) (h : lowerChar c = '*') : c = '*' := by
  unfold lowerChar at h
  split at h <;> simp_all <;> decide

/-- Only the opening parenthesis lowercases to an opening parenthesis. -/
theorem lowerChar_eq_lparen (c : Char) (h : lowerChar c = '(') : c = '(' := by
  unfold lowerChar at h
  split at h <;> simp_all <;> decide

/-- Lowercasing fixes the asterisk. -/
theorem lowerChar_star : lowerChar '*' = '*' := rfl

/-- Unfolding of the case-insensitive prefix test on two cons cells. -/
theorem startsWithCI_cons (p : Char) (ps : List Char) (c : Char) (cs : List Char) :
    startsWithCI (p :: ps) (c :: cs) = ((lowerChar c = p) && startsWithCI ps cs) := rfl

/-- A nonempty pattern is not a prefix of the empty text. -/
theorem startsWithCI_nil_right (p : Char) (ps : List Char) :
    startsWithCI (p :: ps) [] = false := rfl

/-- Unfolding of the case-sensitive prefix test on two cons cells. -/
theorem startsWith_cons (p : Char) (ps : List Char) (c : Char) (cs : List Char) :
    startsWith (p :: ps) (c :: cs) = ((c = p) && startsWith ps cs) := rfl

/-- The head of a pattern found as a substring occurs in the text. -/
theorem containsSub_head_mem (p : Char) (ps l : List Char)
    (h : containsSub (p :: ps) l = true) : p ∈ l := by
  induction l with
  | nil => simp [containsSub] at h
  | cons c cs ih =>
    rw [containsSub] at h
    rcases Bool.or_eq_true_iff.mp h with h1 | h2
    · rw [startsWith] at h1
      have := (Bool.and_eq_true_iff.mp h1).1
      simp at this
      simp [this]
    · simp [ih h2]

/-- Every element of takeWhile satisfies the predicate. -/
theorem mem_takeWhile_sat {α : Type} (p : α → Bool) (l : List α) :
    ∀ a ∈ l.takeWhile p, p a = true := by
  induction l with
  | nil => simp
  | cons c cs ih =>
    intro a ha
    rw [List.takeWhile_cons] at ha
    by_cases hc : p c
    · rw [if_pos hc] at ha
      rcases List.mem_cons.mp ha with rfl | hm
      · exact hc
      · exact ih a hm
    · rw [if_neg hc] at ha
      simp at ha

/-- A stripped string is empty only when every character is whitespace. -/
theorem pyStrip_eq_nil_all_space (l : List Char) (h : pyStrip l = []) :
    ∀ c ∈ l, pySpace c = true := by
  unfold pyStrip at h
  have h2 : (l.dropWhile pySpace).reverse.dropWhile pySpace = [] := by
    simpa using h
  have h3 : ∀ c ∈ (l.dropWhile pySpace).reverse, pySpace c = true := by
    intro c hc
    exact List.dropWhile_eq_nil_iff.mp h2 c hc
  have h4 : ∀ c ∈ l.dropWhile pySpace, pySpace c = true := by
    intro c hc
    exact h3 c (by simpa using hc)
  intro c hc
  rw [← List.takeWhile_append_dropWhile (p := pySpace) (l := l)] at hc
  rcases List.mem_append.mp hc with hm | hm
  · exact mem_takeWhile_sat pySpace l c hm
  · exact h4 c hm

/-- A string containing a non-whitespace character does not strip to the
empty string. -/
theorem pyStrip_ne_nil (l : List Char) (c : Char) (hc : c ∈ l)
    (hns : pySpace c = false) : pyStrip l ≠ [] := by
  intro h
  have := pyStrip_eq_nil_all_space l h c hc
  rw [hns] at this
  exact Bool.false_ne_true this

/-- Stripping is the identity when both ends are non-whitespace. -/
theorem pyStrip_id (l : List Char) (h1 : l ≠ [])
    (hh : pySpace (l.headD ' ') = false)
    (hl : pySpace (l.getLastD ' ') = false) : pyStrip l = l := by
  obtain ⟨c, cs, rfl⟩ := List.exists_cons_of_ne_nil h1
  have hd : (c :: cs).dropWhile pySpace = c :: cs := by
    rw [List.dropWhile_cons]
    simp only [List.headD_cons] at hh
    rw [hh]
    simp
  unfold pyStrip
  rw [hd]
  have hrev : (c :: cs).reverse ≠ [] := by simp
  obtain ⟨d, ds, hds⟩ := List.exists_cons_of_ne_nil hrev
  have hlast : (c :: cs).getLastD ' ' = d := by
    have : c :: cs = (d :: ds).reverse := by rw [← hds, List.reverse_reverse]
    rw [this]
    simp [List.reverse_cons]
  rw [hds, List.dropWhile_cons]
  rw [hlast] at hl
  rw [hl]
  simp [← hds]

/-- Splitting on newlines yields a single line when none occurs. -/
theorem splitNL_single (l : List Char) (h : ∀ c ∈ l, c ≠ '\n') :
    splitNL l = [l] := by
  induction l with
  | nil => rfl
  | cons c cs ih =>
    have hcs : splitNL cs = [cs] := ih (fun d hd => h d (List.mem_cons_of_mem c hd))
    rw [splitNL, hcs]
    have : c ≠ '\n' := h c (List.mem_cons_self c cs)
    simp [this]

/-- Joining a single line is the identity. -/
theorem joinNL_single (l : List Char) : joinNL [l] = l := by
  simp [joinNL, List.intercalate]

/-! ## Lemmas about the substitution primitives -/

/-- The substitution on the empty text is empty. -/
theorem replaceAllCI_nil (pat repl : List Char) : replaceAllCI pat repl [] = [] := rfl

/-- replaceAllCI is the identity when no character of the text lowercases
to the head of the pattern. -/
theorem replaceAllCI_head_absent (p : Char) (ps repl l : List Char)
    (h : ∀ c ∈ l, lowerChar c ≠ p) : replaceAllCI (p :: ps) repl l = l := by
  induction l with
  | nil => exact replaceAllCI_nil _ _
  | cons c cs ih =>
    have hc := h c (List.mem_cons_self c cs)
    have hsw : startsWithCI (p :: ps) (c :: cs) = false := by
      rw [startsWithCI]
      simp [hc]
    rw [replaceAllCI_cons, if_neg (by simp [hsw])]
    rw [ih (fun d hd => h d (List.mem_cons_of_mem c hd))]

/-- On star-free text and a star-free key, the case-insensitive prefix test
on the star-wrapped forms decides case-insensitive equality of key and
text. -/
theorem startsWithCI_wrapped (key : List Char) (hk : ∀ c ∈ key, c ≠ '*') :
    ∀ x : List Char, (∀ c ∈ x, c ≠ '*') →
      ((startsWithCI (key ++ ['*', '*']) (x ++ ['*', '*']) = true) ↔
        x.map lowerChar = key) := by
  induction key with
  | nil =>
    intro x hx
    cases x with
    | nil => simp [startsWithCI, lowerChar_star]
    | cons c cs =>
      have hc : lowerChar c ≠ '*' := fun hh => hx c (List.mem_cons_self c cs) (lowerChar_eq_star c hh)
      simp [startsWithCI, hc]
  | cons k ks ih =>
    intro x hx
    have hk0 : k ≠ '*' := hk k (List.mem_cons_self k ks)
    have hks : ∀ c ∈ ks, c ≠ '*' := fun c hc => hk c (List.mem_cons_of_mem k hc)
    cases x with
    | nil =>
      have : lowerChar '*' = '*' := rfl
      simp [startsWithCI, this, Ne.symm hk0]
    | cons c cs =>
      have hcs : ∀ d ∈ cs, d ≠ '*' := fun d hd => hx d (List.mem_cons_of_mem c hd)
      have hiff := ih hks cs hcs
      simp [startsWithCI, hiff]

/-- The star-wrapped pattern does not occur in star-free text followed by a
closing star pair, so the substitution is the identity there. -/
theorem replaceAllCI_tail_id (key repl : List Char) (hkey : key ≠ []) :
    ∀ y : List Char, (∀ c ∈ y, c ≠ '*') →
      replaceAllCI ('*' :: '*' :: (key ++ ['*', '*'])) repl (y ++ ['*', '*'])
        = y ++ ['*', '*'] := by
  intro y
  induction y with
  | nil =>
    intro _
    obtain ⟨k0, ks, rfl⟩ := List.exists_cons_of_ne_nil hkey
    have h1 : startsWithCI ('*' :: '*' :: k0 :: (ks ++ ['*', '*'])) ['*', '*'] = false := by
      rw [startsWithCI_cons, startsWithCI_cons, startsWithCI_nil_right]
      simp
    have h2 : startsWithCI ('*' :: '*' :: k0 :: (ks ++ ['*', '*'])) ['*'] = false := by
      rw [startsWithCI_cons, startsWithCI_nil_right]
      simp
    rw [List.nil_append, replaceAllCI_cons, if_neg (by simp [h1])]
    rw [replaceAllCI_cons, if_neg (by simp [h2])]
    rw [replaceAllCI_nil]
  | cons c y ih =>
    intro hy
    have hc : lowerChar c ≠ '*' := fun hh => hy c (List.mem_cons_self c y) (lowerChar_eq_star c hh)
    have hsw : startsWithCI ('*' :: '*' :: (key ++ ['*', '*'])) (c :: (y ++ ['*', '*']))
        = false := by
      rw [startsWithCI_cons]
      simp [hc]
    rw [List.cons_append, replaceAllCI_cons, if_neg (by simp [hsw])]
    rw [ih (fun d hd => hy d (List.mem_cons_of_mem c hd))]

/-- The star-wrapped case-insensitive substitution on a star-wrapped
star-free line: the whole line is replaced exactly when the line content
equals the key case-insensitively, and otherwise nothing matches. -/
theorem replaceAllCI_bold_wrapped (key repl x : List Char) (hkey : key ≠ [])
    (hk : ∀ c ∈ key, c ≠ '*') (hx0 : x ≠ []) (hx : ∀ c ∈ x, c ≠ '*') :
    replaceAllCI ('*' :: '*' :: (key ++ ['*', '*'])) repl
        ('*' :: '*' :: (x ++ ['*', '*']))
      = if x.map lowerChar = key then repl
        else '*' :: '*' :: (x ++ ['*', '*']) := by
  by_cases hm : x.map lowerChar = key
  · rw [if_pos hm]
    have hsw : startsWithCI ('*' :: '*' :: (key ++ ['*', '*']))
        ('*' :: '*' :: (x ++ ['*', '*'])) = true := by
      rw [startsWithCI_cons, startsWithCI_cons]
      have hw := (startsWithCI_wrapped key hk x hx).mpr hm
      simp [hw, lowerChar_star]
    rw [replaceAllCI_cons, if_pos (by simp [hsw])]
    have hxlen : x.length = key.length := by
      have := congrArg List.length hm
      simpa using this
    have hdrop : List.drop (('*' :: '*' :: (key ++ ['*', '*'])).length - 1)
        ('*' :: (x ++ ['*', '*'])) = [] := by
      apply List.drop_eq_nil_of_le
      simp [hxlen]
    rw [hdrop, replaceAllCI_nil]
    simp
  · rw [if_neg hm]
    have hsw : startsWithCI ('*' :: '*' :: (key ++ ['*', '*']))
        ('*' :: '*' :: (x ++ ['*', '*'])) = false := by
      rw [startsWithCI_cons, startsWithCI_cons]
      have h1 : ¬ (startsWithCI (key ++ ['*', '*']) (x ++ ['*', '*']) = true) := by
        rw [startsWithCI_wrapped key hk x hx]
        exact hm
      simp at h1
      simp [h1]
    rw [replaceAllCI_cons, if_neg (by simp [hsw])]
    obtain ⟨x0, xs, rfl⟩ := List.exists_cons_of_ne_nil hx0
    have hx0s : lowerChar x0 ≠ '*' :=
      fun hh => hx x0 (List.mem_cons_self x0 xs) (lowerChar_eq_star x0 hh)
    have hsw2 : startsWithCI ('*' :: '*' :: (key ++ ['*', '*']))
        ('*' :: x0 :: (xs ++ ['*', '*'])) = false := by
      rw [startsWithCI_cons, startsWithCI_cons]
      simp [hx0s]
    rw [replaceAllCI_cons, if_neg (by simp [hsw2])]
    rw [replaceAllCI_tail_id key repl hkey (x0 :: xs) hx]

/-- findClose on star-free content followed by a closing pair returns the
whole content with an empty remainder. -/
theorem findClose_starfree : ∀ x : List Char, x ≠ [] → (∀ c ∈ x, c ≠ '*') →
    findClose (x ++ ['*', '*']) = some (x, []) := by
  intro x
  induction x with
  | nil => intro h; exact absurd rfl h
  | cons c cs ih =>
    intro _ hx
    rw [List.cons_append, findClose]
    cases cs with
    | nil => simp [startsWith]
    | cons c1 cs1 =>
      have h1 : c1 ≠ '*' := hx c1 (by simp)
      have hsw : startsWith ['*', '*'] (c1 :: (cs1 ++ ['*', '*'])) = false := by
        rw [startsWith_cons]
        simp [h1]
      rw [if_neg (by simp [hsw])]
      rw [ih (by simp) (fun d hd => hx d (List.mem_cons_of_mem c hd))]
      rfl

/-- The bold substitution on the empty text is empty. -/
theorem boldSub_nil : boldSub [] = [] := rfl

/-- The global bold substitution is the identity on star-free text. -/
theorem boldSub_starfree : ∀ l : List Char, (∀ c ∈ l, c ≠ '*') → boldSub l = l := by
  intro l
  induction l with
  | nil => intro _; exact boldSub_nil
  | cons c cs ih =>
    intro h
    have hc : c ≠ '*' := h c (List.mem_cons_self c cs)
    have hsw : startsWith ['*', '*'] (c :: cs) = false := by
      rw [startsWith]
      simp [hc]
    rw [boldSub_cons, if_neg (by simp [hsw])]
    rw [ih (fun d hd => h d (List.mem_cons_of_mem c hd))]

/-- The global bold substitution on a single star-wrapped star-free group
returns the bare group. -/
theorem boldSub_wrapped (x : List Char) (hx0 : x ≠ []) (hx : ∀ c ∈ x, c ≠ '*') :
    boldSub ('*' :: '*' :: (x ++ ['*', '*'])) = x := by
  rw [boldSub_cons]
  have hsw : startsWith ['*', '*'] ('*' :: '*' :: (x ++ ['*', '*'])) = true := by
    simp [startsWith]
  rw [if_pos (by simp [hsw])]
  have hfc := findClose_starfree x hx0 hx
  have hdrop : List.drop 1 ('*' :: (x ++ ['*', '*'])) = x ++ ['*', '*'] := rfl
  rw [hdrop, hfc]
  show x ++ boldSub [] = x
  rw [boldSub_nil]
  simp

/-! ## Lemmas about the anchored list rules -/

/-- The bold-number rule leaves a line alone when its first non-blank
character is not a list marker. -/
theorem rule2_nonmarker (l : List Char) (c : Char) (u : List Char)
    (hdw : l.dropWhile pySpace = c :: u) (h1 : c ≠ '-') (h2 : c ≠ '*') :
    rule2 l = l := by
  unfold rule2
  rw [hdw]
  simp [h1, h2]

/-- The bold-item rule leaves a line alone when its first non-blank
character is not a list marker. -/
theorem rule3_nonmarker (l : List Char) (c : Char) (u : List Char)
    (hdw : l.dropWhile pySpace = c :: u) (h1 : c ≠ '-') (h2 : c ≠ '*') :
    rule3 l = l := by
  unfold rule3
  rw [hdw]
  simp [h1, h2]

/-- The plain-item rule leaves a line alone when its first non-blank
character is not a list marker. -/
theorem rule4_nonmarker (l : List Char) (c : Char) (u : List Char)
    (hdw : l.dropWhile pySpace = c :: u) (h1 : c ≠ '-') (h2 : c ≠ '*') :
    rule4 l = l := by
  unfold rule4
  rw [hdw]
  simp [h1, h2]

/-- The numbered-item rule leaves a line alone when its first non-blank
character is not a digit. -/
theorem rule5_nondigit (l : List Char) (c : Char) (u : List Char)
    (hdw : l.dropWhile pySpace = c :: u) (hc : c.isDigit = false) :
    rule5 l = l := by
  unfold rule5
  rw [hdw]
  simp [List.takeWhile_cons, hc]

/-- A line opening with a doubled asterisk and then a non-asterisk is left
alone by the bold-number rule. -/
theorem rule2_star2 (x0 : Char) (rest : List Char) (hx0 : x0 ≠ '*') :
    rule2 ('*' :: '*' :: x0 :: rest) = '*' :: '*' :: x0 :: rest := by
  have hdw : ('*' :: '*' :: x0 :: rest).dropWhile pySpace = '*' :: '*' :: x0 :: rest := by
    rw [List.dropWhile_cons]
    simp +decide
  have hdw2 : ('*' :: x0 :: rest).dropWhile pySpace = '*' :: x0 :: rest := by
    rw [List.dropWhile_cons]
    simp +decide
  unfold rule2
  rw [hdw]
  simp +decide [hdw2]
  split
  · rename_i v1 heq
    simp at heq
    exact absurd heq.1 hx0
  · rfl

/-- A line opening with a doubled asterisk and then a non-asterisk is left
alone by the bold-item rule. -/
theorem rule3_star2 (x0 : Char) (rest : List Char) (hx0 : x0 ≠ '*') :
    rule3 ('*' :: '*' :: x0 :: rest) = '*' :: '*' :: x0 :: rest := by
  have hdw : ('*' :: '*' :: x0 :: rest).dropWhile pySpace = '*' :: '*' :: x0 :: rest := by
    rw [List.dropWhile_cons]
    simp +decide
  have hdw2 : ('*' :: x0 :: rest).dropWhile pySpace = '*' :: x0 :: rest := by
    rw [List.dropWhile_cons]
    simp +decide
  unfold rule3
  rw [hdw]
  simp +decide [hdw2]
  split
  · rename_i v1 heq
    simp at heq
    exact absurd heq.1 hx0
  · rfl

/-- A line opening with a doubled asterisk is left alone by the plain-item
rule: no whitespace follows the marker. -/
theorem rule4_star2 (rest : List Char) :
    rule4 ('*' :: '*' :: rest) = '*' :: '*' :: rest := by
  have hdw : ('*' :: '*' :: rest).dropWhile pySpace = '*' :: '*' :: rest := by
    rw [List.dropWhile_cons]
    simp +decide
  have htw : ('*' :: rest).takeWhile pySpace = [] := by
    rw [List.takeWhile_cons]
    simp +decide
  unfold rule4
  rw [hdw]
  simp +decide [htw]

/-- A dash list line with star-free non-blank content is left alone by the
bold-number rule. -/
theorem rule2_dash (x0 : Char) (xs : List Char) (h1 : pySpace x0 = false)
    (h2 : x0 ≠ '*') :
    rule2 ('-' :: ' ' :: x0 :: xs) = '-' :: ' ' :: x0 :: xs := by
  have hdw : ('-' :: ' ' :: x0 :: xs).dropWhile pySpace = '-' :: ' ' :: x0 :: xs := by
    rw [List.dropWhile_cons]
    simp +decide
  have hdw2 : (' ' :: x0 :: xs).dropWhile pySpace = x0 :: xs := by
    rw [List.dropWhile_cons]
    simp +decide [List.dropWhile_cons, h1]
  unfold rule2
  rw [hdw]
  simp +decide [hdw2]
  split
  · rename_i v1 heq
    simp at heq
    exact absurd heq.1 h2
  · rfl

/-- A dash list line with star-free non-blank content is left alone by the
bold-item rule. -/
theorem rule3_dash (x0 : Char) (xs : List Char) (h1 : pySpace x0 = false)
    (h2 : x0 ≠ '*') :
    rule3 ('-' :: ' ' :: x0 :: xs) = '-' :: ' ' :: x0 :: xs := by
  have hdw : ('-' :: ' ' :: x0 :: xs).dropWhile pySpace = '-' :: ' ' :: x0 :: xs := by
    rw [List.dropWhile_cons]
    simp +decide
  have hdw2 : (' ' :: x0 :: xs).dropWhile pySpace = x0 :: xs := by
    rw [List.dropWhile_cons]
    simp +decide [List.dropWhile_cons, h1]
  unfold rule3
  rw [hdw]
  simp +decide [hdw2]
  split
  · rename_i v1 heq
    simp at heq
    exact absurd heq.1 h2
  · rfl

/-- The plain-item rule rewrites a dash list line with non-blank content to
the bullet form. -/
theorem rule4_dash_fire (x0 : Char) (xs : List Char) (h1 : pySpace x0 = false) :
    rule4 ('-' :: ' ' :: x0 :: xs) = [' ', ' ', ' ', '•', ' '] ++ x0 :: xs := by
  have hdw : ('-' :: ' ' :: x0 :: xs).dropWhile pySpace = '-' :: ' ' :: x0 :: xs := by
    rw [List.dropWhile_cons]
    simp +decide
  have htw : (' ' :: x0 :: xs).takeWhile pySpace = [' '] := by
    rw [List.takeWhile_cons]
    simp +decide [List.takeWhile_cons, h1]
  have hdw2 : (' ' :: x0 :: xs).dropWhile pySpace = x0 :: xs := by
    rw [List.dropWhile_cons]
    simp +decide [List.dropWhile_cons, h1]
  have htw0 : ('-' :: ' ' :: x0 :: xs).takeWhile pySpace = [] := by
    rw [List.takeWhile_cons]
    simp +decide
  unfold rule4
  rw [hdw]
  simp +decide [htw, htw0, hdw2]

/-- The numbered-item rule rewrites a numbered list line with non-blank
content to the bullet form. -/
theorem rule5_one_fire (x0 : Char) (xs : List Char) (h1 : pySpace x0 = false) :
    rule5 ('1' :: '.' :: ' ' :: x0 :: xs) = [' ', ' ', ' ', '•', ' '] ++ x0 :: xs := by
  have hdw : ('1' :: '.' :: ' ' :: x0 :: xs).dropWhile pySpace
      = '1' :: '.' :: ' ' :: x0 :: xs := by
    rw [List.dropWhile_cons]
    simp +decide
  have htw0 : ('1' :: '.' :: ' ' :: x0 :: xs).takeWhile pySpace = [] := by
    rw [List.takeWhile_cons]
    simp +decide
  have htwd : ('1' :: '.' :: ' ' :: x0 :: xs).takeWhile Char.isDigit = ['1'] := by
    rw [List.takeWhile_cons]
    simp +decide [List.takeWhile_cons]
  have hdwd : ('1' :: '.' :: ' ' :: x0 :: xs).dropWhile Char.isDigit
      = '.' :: ' ' :: x0 :: xs := by
    rw [List.dropWhile_cons]
    simp +decide [List.dropWhile_cons]
  have htw : (' ' :: x0 :: xs).takeWhile pySpace = [' '] := by
    rw [List.takeWhile_cons]
    simp +decide [List.takeWhile_cons, h1]
  have hdw2 : (' ' :: x0 :: xs).dropWhile pySpace = x0 :: xs := by
    rw [List.dropWhile_cons]
    simp +decide [List.dropWhile_cons, h1]
  unfold rule5
  rw [hdw]
  simp +decide [htw0, htwd, hdwd, htw, hdw2]

/-! ## Behaviour of processLine on well-formed lines -/

/-- Characterwise properties distribute over a two-part append. -/
theorem forall_mem_append2 {p : Char → Prop} (a b : List Char)
    (ha : ∀ c ∈ a, p c) (hb : ∀ c ∈ b, p c) : ∀ c ∈ a ++ b, p c := by
  intro c hc
  rcases List.mem_append.mp hc with h | h
  · exact ha c h
  · exact hb c h

/-- Characterwise properties distribute over a three-part append. -/
theorem forall_mem_append3 {p : Char → Prop} (a b d : List Char)
    (ha : ∀ c ∈ a, p c) (hb : ∀ c ∈ b, p c) (hd : ∀ c ∈ d, p c) :
    ∀ c ∈ a ++ b ++ d, p c := by
  intro c hc
  rcases List.mem_append.mp hc with h | h
  · exact forall_mem_append2 a b ha hb c h
  · exact hd c h

/-- No character of a star-free list lowercases to an asterisk. -/
theorem starfree_lower (x : List Char) (hstar : ∀ c ∈ x, c ≠ '*') :
    ∀ c ∈ x, lowerChar c ≠ '*' := by
  intro c hc hl
  exact hstar c hc (lowerChar_eq_star c hl)

/-- No character of a parenthesis-free list lowercases to an opening
parenthesis. -/
theorem parenfree_lower (x : List Char) (hparen : ∀ c ∈ x, c ≠ '(') :
    ∀ c ∈ x, lowerChar c ≠ '(' := by
  intro c hc hl
  exact hparen c hc (lowerChar_eq_lparen c hl)

/-- processLine on a single star-wrapped star-free line: the three bold
section headers are renamed and any other content is unwrapped. -/
theorem processLine_bold (x : List Char) (hx0 : x ≠ [])
    (hstar : ∀ c ∈ x, c ≠ '*') (hparen : ∀ c ∈ x, c ≠ '(') :
    processLine ('*' :: '*' :: (x ++ ['*', '*']))
      = if x.map lowerChar = ("todo").data then ("Todo").data
        else if x.map lowerChar = ("in progress").data then ("In Progress").data
        else if x.map lowerChar = ("done").data then ("Done").data
        else x := by
  simp only [processLine]
  have e1 : (['*', '*', 't', 'o', 'd', 'o', '*', '*'] : List Char)
      = '*' :: '*' :: (['t', 'o', 'd', 'o'] ++ ['*', '*']) := rfl
  rw [e1, replaceAllCI_bold_wrapped ['t', 'o', 'd', 'o'] ['T', 'o', 'd', 'o'] x
    (by decide) (by decide) hx0 hstar]
  by_cases h1 : x.map lowerChar = ['t', 'o', 'd', 'o']
  · rw [if_pos h1, if_pos h1]
    decide
  · rw [if_neg h1, if_neg h1]
    have e2 : (['*', '*', 'i', 'n', ' ', 'p', 'r', 'o', 'g', 'r', 'e', 's', 's', '*', '*'] :
        List Char)
        = '*' :: '*' :: (['i', 'n', ' ', 'p', 'r', 'o', 'g', 'r', 'e', 's', 's'] ++ ['*', '*']) :=
      rfl
    rw [e2, replaceAllCI_bold_wrapped ['i', 'n', ' ', 'p', 'r', 'o', 'g', 'r', 'e', 's', 's']
      ['I', 'n', ' ', 'P', 'r', 'o', 'g', 'r', 'e', 's', 's'] x (by decide) (by decide) hx0 hstar]
    by_cases h2 : x.map lowerChar = ['i', 'n', ' ', 'p', 'r', 'o', 'g', 'r', 'e', 's', 's']
    · rw [if_pos h2, if_pos h2]
      decide
    · rw [if_neg h2, if_neg h2]
      have e3 : (['*', '*', 'd', 'o', 'n', 'e', '*', '*'] : List Char)
          = '*' :: '*' :: (['d', 'o', 'n', 'e'] ++ ['*', '*']) := rfl
      rw [e3, replaceAllCI_bold_wrapped ['d', 'o', 'n', 'e'] ['D', 'o', 'n', 'e'] x
        (by decide) (by decide) hx0 hstar]
      by_cases h3 : x.map lowerChar = ['d', 'o', 'n', 'e']
      · rw [if_pos h3, if_pos h3]
        decide
      · rw [if_neg h3, if_neg h3]
        have hparen2 : ∀ c ∈ '*' :: '*' :: (x ++ ['*', '*']), lowerChar c ≠ '(' := by
          have := forall_mem_append3 (p := fun c => lowerChar c ≠ '(')
            ['*', '*'] x ['*', '*'] (by decide) (parenfree_lower x hparen) (by decide)
          intro c hc
          apply this
          simpa using hc
        obtain ⟨x0, xs, rfl⟩ := List.exists_cons_of_ne_nil hx0
        have hx0star : x0 ≠ '*' := hstar x0 (List.mem_cons_self x0 xs)
        simp only [List.cons_append]
        rw [rule2_star2 x0 (xs ++ ['*', '*']) hx0star]
        rw [rule3_star2 x0 (xs ++ ['*', '*']) hx0star]
        rw [rule4_star2 (x0 :: (xs ++ ['*', '*']))]
        have hdw : ('*' :: '*' :: x0 :: (xs ++ ['*', '*'])).dropWhile pySpace
            = '*' :: ('*' :: x0 :: (xs ++ ['*', '*'])) := by
          rw [List.dropWhile_cons]
          simp +decide
        rw [rule5_nondigit _ '*' _ hdw (by decide)]
        rw [replaceAllCI_head_absent '(' ['n', 'o', 'n', 'e', ')']
          ['(', 'n', 'o', ' ', 't', 'a', 's', 'k', 's', ')'] _
          (by
            have := hparen2
            simp only [List.cons_append] at this
            exact this)]
        have hb := boldSub_wrapped (x0 :: xs) (by simp) hstar
        simp only [List.cons_append] at hb
        exact hb

/-- processLine on a dash list line with well-formed content produces the
bullet line. -/
theorem processLine_dash (x : List Char) (hx0 : x ≠ [])
    (hstar : ∀ c ∈ x, c ≠ '*') (hparen : ∀ c ∈ x, c ≠ '(')
    (hhead : pySpace (x.headD ' ') = false) :
    processLine ('-' :: ' ' :: x) = [' ', ' ', ' ', '•', ' '] ++ x := by
  have habs : ∀ c ∈ '-' :: ' ' :: x, lowerChar c ≠ '*' := by
    have := forall_mem_append2 (p := fun c => lowerChar c ≠ '*')
      ['-', ' '] x (by decide) (starfree_lower x hstar)
    intro c hc
    apply this
    simpa using hc
  have hbulstar : ∀ c ∈ ([' ', ' ', ' ', '•', ' '] : List Char) ++ x, c ≠ '*' :=
    forall_mem_append2 [' ', ' ', ' ', '•', ' '] x (by decide) hstar
  have hbulpar : ∀ c ∈ ([' ', ' ', ' ', '•', ' '] : List Char) ++ x, lowerChar c ≠ '(' :=
    forall_mem_append2 [' ', ' ', ' ', '•', ' '] x (by decide) (parenfree_lower x hparen)
  obtain ⟨x0, xs, rfl⟩ := List.exists_cons_of_ne_nil hx0
  have hx0star : x0 ≠ '*' := hstar x0 (List.mem_cons_self x0 xs)
  have hx0ns : pySpace x0 = false := by simpa using hhead
  simp only [processLine]
  rw [replaceAllCI_head_absent '*' _ _ _ habs]
  rw [replaceAllCI_head_absent '*' _ _ _ habs]
  rw [replaceAllCI_head_absent '*' _ _ _ habs]
  rw [rule2_dash x0 xs hx0ns hx0star]
  rw [rule3_dash x0 xs hx0ns hx0star]
  rw [rule4_dash_fire x0 xs hx0ns]
  have hdw : (([' ', ' ', ' ', '•', ' '] : List Char) ++ x0 :: xs).dropWhile pySpace
      = '•' :: (' ' :: x0 :: xs) := by
    simp +decide [List.dropWhile_cons]
  rw [rule5_nondigit _ '•' _ hdw (by decide)]
  rw [replaceAllCI_head_absent '(' ['n', 'o', 'n', 'e', ')']
    ['(', 'n', 'o', ' ', 't', 'a', 's', 'k', 's', ')'] _ hbulpar]
  exact boldSub_starfree _ hbulstar

/-- processLine on a numbered list line with well-formed content produces
the bullet line. -/
theorem processLine_numbered (x : List Char) (hx0 : x ≠ [])
    (hstar : ∀ c ∈ x, c ≠ '*') (hparen : ∀ c ∈ x, c ≠ '(')
    (hhead : pySpace (x.headD ' ') = false) :
    processLine ('1' :: '.' :: ' ' :: x) = [' ', ' ', ' ', '•', ' '] ++ x := by
  have habs : ∀ c ∈ '1' :: '.' :: ' ' :: x, lowerChar c ≠ '*' := by
    have := forall_mem_append2 (p := fun c => lowerChar c ≠ '*')
      ['1', '.', ' '] x (by decide) (starfree_lower x hstar)
    intro c hc
    apply this
    simpa using hc
  have hbulstar : ∀ c ∈ ([' ', ' ', ' ', '•', ' '] : List Char) ++ x, c ≠ '*' :=
    forall_mem_append2 [' ', ' ', ' ', '•', ' '] x (by decide) hstar
  have hbulpar : ∀ c ∈ ([' ', ' ', ' ', '•', ' '] : List Char) ++ x, lowerChar c ≠ '(' :=
    forall_mem_append2 [' ', ' ', ' ', '•', ' '] x (by decide) (parenfree_lower x hparen)
  obtain ⟨x0, xs, rfl⟩ := List.exists_cons_of_ne_nil hx0
  have hx0ns : pySpace x0 = false := by simpa using hhead
  have hdw1 : ('1' :: '.' :: ' ' :: x0 :: xs).dropWhile pySpace
      = '1' :: ('.' :: ' ' :: x0 :: xs) := by
    rw [List.dropWhile_cons]
    simp +decide
  simp only [processLine]
  rw [replaceAllCI_head_absent '*' _ _ _ habs]
  rw [replaceAllCI_head_absent '*' _ _ _ habs]
  rw [replaceAllCI_head_absent '*' _ _ _ habs]
  rw [rule2_nonmarker _ '1' _ hdw1 (by decide) (by decide)]
  rw [rule3_nonmarker _ '1' _ hdw1 (by decide) (by decide)]
  rw [rule4_nonmarker _ '1' _ hdw1 (by decide) (by decide)]
  rw [rule5_one_fire x0 xs hx0ns]
  rw [replaceAllCI_head_absent '(' ['n', 'o', 'n', 'e', ')']
    ['(', 'n', 'o', ' ', 't', 'a', 's', 'k', 's', ')'] _ hbulpar]
  exact boldSub_starfree _ hbulstar

/-- The character list of a packed string is the list itself. -/
theorem String_data_mk (l : List Char) : ((⟨l⟩ : String)).data = l := rfl

/-- format_agent_response on a single non-blank line with non-blank ends is
the processed line. -/
theorem far_single_line (l : List Char) (hne : l ≠ [])
    (hh : pySpace (l.headD ' ') = false)
    (hl2 : pySpace (l.getLastD ' ') = false)
    (hnl : ∀ c ∈ l, c ≠ '\n') :
    format_agent_response ⟨l⟩ = ⟨processLine l⟩ := by
  unfold format_agent_response
  have hdata : (String.mk l).data = l := rfl
  have hstrip : pyStrip l = l := pyStrip_id l hne hh hl2
  rw [hdata, hstrip, if_neg hne, splitNL_single l hnl]
  simp [joinNL_single]

/-! ## Claim theorems -/

/-- C10: for every call of move_task or delete_task with a task id that
does not exist in the tasks table, the tool returns the not-found message
and the database is left unchanged, so every existing task keeps its id,
title, description and status. -/
theorem c10_missing_task_id_leaves_db_unchanged (db : List Task) (task_id : Int)
    (new_status : TaskStatus) (h : ∀ t ∈ db, t.id ≠ task_id) :
    move_task db task_id new_status = (notFoundMsg task_id, db) ∧
    delete_task db task_id = (notFoundMsg task_id, db) := by
  have hf : findTask db task_id = none := by
    apply List.find?_eq_none.mpr
    intro t ht
    simp [h t ht]
  constructor
  · simp [move_task, hf]
  · simp [delete_task, hf]

/-- Witness for C10 at a concrete one-row table and a missing id. -/
theorem c10_missing_task_id_witness :
    move_task [⟨1, ("Ship release"), (""), TaskStatus.todo⟩] 2 TaskStatus.done
      = (notFoundMsg 2, [⟨1, ("Ship release"), (""), TaskStatus.todo⟩]) ∧
    delete_task [⟨1, ("Ship release"), (""), TaskStatus.todo⟩] 2
      = (notFoundMsg 2, [⟨1, ("Ship release"), (""), TaskStatus.todo⟩]) :=
  c10_missing_task_id_leaves_db_unchanged
    [⟨1, ("Ship release"), (""), TaskStatus.todo⟩] 2 TaskStatus.done (by decide)

/-- C3: if every backend query succeeds the catalog build succeeds and its
tool count is the sum of the advertised counts; if any query fails the
build fails as a whole and no catalog value is produced. -/
theorem c3_catalog_all_or_nothing (qs : List BackendQuery) :
    ((∀ q ∈ qs, ∃ ts, q = Except.ok ts) →
      ∃ cat, buildCatalog qs = Except.ok cat ∧
        cat.length = (qs.map advertisedCount).sum) ∧
    ((∃ q ∈ qs, ∃ e, q = Except.error e) →
      ∃ e, buildCatalog qs = Except.error e) := by
  induction qs with
  | nil =>
    constructor
    · intro _
      exact ⟨[], rfl, rfl⟩
    · rintro ⟨q, hq, _⟩
      simp at hq
  | cons q rest ih =>
    constructor
    · intro h
      obtain ⟨ts, rfl⟩ := h q (List.mem_cons_self q rest)
      obtain ⟨cat, hc, hl⟩ := ih.1 (fun r hr => h r (List.mem_cons_of_mem _ hr))
      refine ⟨ts ++ cat, ?_, ?_⟩
      · simp [buildCatalog, hc]
      · simp [advertisedCount, hl]
    · rintro ⟨q0, hq0, e, he⟩
      rcases List.mem_cons.mp hq0 with rfl | hmem
      · subst he
        exact ⟨e, rfl⟩
      · cases q with
        | error e2 => exact ⟨e2, rfl⟩
        | ok ts =>
          obtain ⟨e2, he2⟩ := ih.2 ⟨q0, hmem, e, he⟩
          exact ⟨e2, by simp [buildCatalog, he2]⟩

/-- Witness for C3: two reachable backends merge into a catalog of summed
size; one failing backend aborts the build. -/
theorem c3_catalog_witness :
    (∃ cat, buildCatalog [Except.ok [("add_task")], Except.ok [("a"), ("b")]]
        = Except.ok cat ∧ cat.length
          = ([Except.ok [("add_task")], Except.ok [("a"), ("b")]].map advertisedCount).sum) ∧
    (∃ e, buildCatalog [Except.ok [("add_task")], Except.error ("refused")]
        = Except.error e) := by
  constructor
  · exact (c3_catalog_all_or_nothing _).1 (by
      intro q hq
      rcases List.mem_cons.mp hq with rfl | hq2
      · exact ⟨_, rfl⟩
      · rcases List.mem_cons.mp hq2 with rfl | hq3
        · exact ⟨_, rfl⟩
        · simp at hq3)
  · exact (c3_catalog_all_or_nothing _).2 ⟨Except.error ("refused"), by simp, ("refused"), rfl⟩

/-- C5: the sidecar supervisor returns the already-running result
immediately when the health check succeeds on entry, with no launch and no
state change; after a first call that started the sidecar, a second call
returns already-running and issues no second launch. -/
theorem c5_ensure_ready_idempotent (w : SlackWorld) :
    (w.reachable = true → ensure_slack_docker_running w = Except.ok (false, w, [])) ∧
    (∀ w2 acts, ensure_slack_docker_running w = Except.ok (true, w2, acts) →
      ensure_slack_docker_running w2 = Except.ok (false, w2, [])) := by
  constructor
  · intro h
    simp [ensure_slack_docker_running, h]
  · intro w2 acts h
    have hw2 : w2.reachable = true := by
      unfold ensure_slack_docker_running at h
      by_cases hr : w.reachable
      · simp [hr] at h
      · simp [hr] at h
        cases hs : start_slack_docker w.envFileOk w.outcome with
        | error e => rw [hs] at h; simp at h
        | ok p =>
          obtain ⟨st, acts0⟩ := p
          rw [hs] at h
          by_cases hb : w.becomesReady
          · simp [hb] at h
            rw [← h.2.1]
          · simp [hb] at h
    simp [ensure_slack_docker_running, hw2]

/-- Witness for C5: a first call at an unreachable world performs the
launch, and the second call at the resulting world returns already-running
with no action. -/
theorem c5_ensure_ready_witness :
    ensure_slack_docker_running ⟨false, true, LaunchOutcome.success, true⟩
      = Except.ok (true, ⟨true, true, LaunchOutcome.success, true⟩, [Act.dockerRun]) ∧
    ensure_slack_docker_running ⟨true, true, LaunchOutcome.success, true⟩
      = Except.ok (false, ⟨true, true, LaunchOutcome.success, true⟩, []) := by
  refine ⟨by rfl, ?_⟩
  exact (c5_ensure_ready_idempotent ⟨false, true, LaunchOutcome.success, true⟩).2
    ⟨true, true, LaunchOutcome.success, true⟩ [Act.dockerRun] (by rfl)

/-- C6: the shutdown-on-exit hook is registered exactly when this startup
performed the launch and it succeeded; whenever the supervisor reports
already-running, no hook is registered and the sidecar is never stopped. -/
theorem c6_shutdown_hook_ownership (sf he : Bool) (w : SlackWorld)
    (started : Bool) (w2 : SlackWorld) (acts : List Act)
    (h : run_client_startup sf he w = Except.ok (started, w2, acts)) :
    (Act.registerStopHook ∈ acts ↔ started = true) ∧
    (started = true → Act.dockerRun ∈ acts ∧ w.outcome = LaunchOutcome.success) ∧
    (started = false → Act.registerStopHook ∉ acts ∧ Act.dockerStop ∉ acts ∧
      sessionExitActs acts = []) := by
  unfold run_client_startup at h
  by_cases hflag : (sf && he) = true
  · rw [if_pos hflag] at h
    unfold ensure_slack_docker_running at h
    by_cases hr : w.reachable
    · simp [hr] at h
      obtain ⟨h1, _, h3⟩ := h
      subst h1
      subst h3
      simp [sessionExitActs]
    · simp [hr] at h
      unfold start_slack_docker at h
      by_cases henv : w.envFileOk
      · simp [henv] at h
        cases hoc : w.outcome with
        | success =>
          rw [hoc] at h
          by_cases hb : w.becomesReady
          · simp [hb] at h
            obtain ⟨h1, _, h3⟩ := h
            subst h1
            subst h3
            simp [sessionExitActs]
          · simp [hb] at h
        | binaryMissing =>
          rw [hoc] at h
          simp at h
        | failed se so =>
          rw [hoc] at h
          by_cases hcf : conflictErr se so
          · simp [hcf] at h
            by_cases hb : w.becomesReady
            · simp [hb] at h
              obtain ⟨h1, _, h3⟩ := h
              subst h1
              subst h3
              simp [sessionExitActs]
            · simp [hb] at h
          · simp [hcf] at h
      · simp [henv] at h
  · rw [if_neg hflag] at h
    simp at h
    obtain ⟨h1, _, h3⟩ := h
    subst h1
    subst h3
    simp [sessionExitActs]

/-- Witness for C6 at a startup that launches successfully: the hook is
registered together with the launch action. -/
theorem c6_shutdown_hook_witness :
    (Act.registerStopHook ∈ ([Act.dockerRun, Act.registerStopHook] : List Act) ↔
      true = true) ∧
    (true = true → Act.dockerRun ∈ ([Act.dockerRun, Act.registerStopHook] : List Act) ∧
      (⟨false, true, LaunchOutcome.success, true⟩ : SlackWorld).outcome
        = LaunchOutcome.success) ∧
    (true = false → Act.registerStopHook ∉ ([Act.dockerRun, Act.registerStopHook] : List Act) ∧
      Act.dockerStop ∉ ([Act.dockerRun, Act.registerStopHook] : List Act) ∧
      sessionExitActs [Act.dockerRun, Act.registerStopHook] = []) :=
  c6_shutdown_hook_ownership true true ⟨false, true, LaunchOutcome.success, true⟩
    true ⟨true, true, LaunchOutcome.success, true⟩ [Act.dockerRun, Act.registerStopHook]
    (by rfl)

/-- C7: a launch failing with a name conflict triggers the non-fatal resume
action and reports already-running; a missing env file, a missing launcher
binary or any other launch failure is fatal with a diagnostic. -/
theorem c7_launch_failure_modes :
    (∀ oc : LaunchOutcome, ∃ e, start_slack_docker false oc = Except.error e) ∧
    (∃ e, start_slack_docker true LaunchOutcome.binaryMissing = Except.error e) ∧
    (∀ se so, conflictErr se so = true →
      start_slack_docker true (LaunchOutcome.failed se so)
        = Except.ok (false, [Act.dockerRun, Act.dockerStartExisting])) ∧
    (∀ se so, conflictErr se so = false →
      ∃ e, start_slack_docker true (LaunchOutcome.failed se so) = Except.error e) ∧
    (start_slack_docker true LaunchOutcome.success = Except.ok (true, [Act.dockerRun])) ∧
    (∀ w : SlackWorld, w.reachable = false → w.envFileOk = true →
      w.becomesReady = true →
      ∀ se so, w.outcome = LaunchOutcome.failed se so → conflictErr se so = true →
      ensure_slack_docker_running w
        = Except.ok (false, { w with reachable := true },
            [Act.dockerRun, Act.dockerStartExisting])) := by
  refine ⟨?_, ⟨_, rfl⟩, ?_, ?_, rfl, ?_⟩
  · intro oc
    exact ⟨_, rfl⟩
  · intro se so hc
    simp [start_slack_docker, hc]
  · intro se so hc
    refine ⟨("Failed to start Slack Docker container"), ?_⟩
    simp [start_slack_docker, hc]
  · intro w hr henv hb se so hoc hc
    simp [ensure_slack_docker_running, hr, start_slack_docker, henv, hoc, hc, hb]

/-- Witness for C7 at a concrete conflict error text and a concrete
non-conflict error text. -/
theorem c7_launch_failure_witness :
    start_slack_docker true
        (LaunchOutcome.failed ("container name alREADY in Use by abc") (""))
      = Except.ok (false, [Act.dockerRun, Act.dockerStartExisting]) ∧
    (∃ e, start_slack_docker true
        (LaunchOutcome.failed ("no space left on device") ("")) = Except.error e) := by
  constructor
  · exact c7_launch_failure_modes.2.2.1 _ _ (by decide)
  · exact c7_launch_failure_modes.2.2.2.1 _ _ (by decide)

/-- C2: the claim that tool names are recorded whether or not verbose mode
is enabled is contradicted by the code: the same turn records the invoked
tool only when verbose is true, because the recording statement sits inside
the verbose branch of the event loop. -/
theorem c2_tool_recording_gated_by_verbose :
    (handle_user_message false [AgentEvent.toolCall ("add_task") ("")] (some ("done"))).2
      = [] ∧
    (handle_user_message true [AgentEvent.toolCall ("add_task") ("")] (some ("done"))).2
      = [("add_task")] := by
  constructor
  · rfl
  · rfl

/-- The first component of the event fold is the most recent tool result
output, independently of verbose mode. -/
theorem observeEvents_fst (verbose : Bool) (events : List AgentEvent) :
    (observeEvents verbose events).1 = lastToolOutput events := by
  unfold observeEvents lastToolOutput
  suffices h : ∀ acc : Option ToolOut × List String,
      (events.foldl (observeStep verbose) acc).1 = events.foldl lastStep acc.1 by
    exact h (none, [])
  induction events with
  | nil => intro acc; rfl
  | cons e evs ih =>
    intro acc
    simp only [List.foldl_cons]
    rw [ih]
    congr 1
    cases e with
    | toolCall n k =>
      by_cases hv : verbose <;> simp [observeStep, lastStep, hv]
    | toolCallResult n o => rfl
    | other => rfl

/-- C8 counterexample: non-empty final text is not used unchanged — the
code strips surrounding whitespace before using it. -/
theorem c8_response_not_unchanged_counterexample :
    (handle_user_message true [] (some (" hi "))).1 = ("hi") ∧ (" hi ") ≠ ("hi") := by
  constructor
  · decide
  · decide

/-- C8 amended: when the final text is empty or whitespace-only and a tool
completed, the response is the rendering of the most recent tool output;
when the final text is non-empty after trimming, the trimmed text is used
as the response. -/
theorem c8_blank_response_fallback (verbose : Bool) (events : List AgentEvent)
    (s : String) :
    (pyStrip s.data = [] → ∀ o, lastToolOutput events = some o →
      (handle_user_message verbose events (some s)).1 = format_tool_output o) ∧
    (pyStrip s.data ≠ [] →
      (handle_user_message verbose events (some s)).1 = ⟨pyStrip s.data⟩) := by
  constructor
  · intro hs o ho
    have hobs : (observeEvents verbose events).1 = some o := by
      rw [observeEvents_fst]
      exact ho
    simp [handle_user_message, hs, hobs]
  · intro hs
    simp [handle_user_message, hs]

/-- Witness for C8: a whitespace-only final text with one completed tool
falls back to that tool output; a padded final text is trimmed. -/
theorem c8_blank_response_witness :
    (handle_user_message true
        [AgentEvent.toolCallResult ("list_tasks") (ToolOut.plain ("no tasks"))]
        (some ("   "))).1 = format_tool_output (ToolOut.plain ("no tasks")) ∧
    (handle_user_message true [] (some (" ok "))).1 = ⟨pyStrip (" ok ").data⟩ := by
  constructor
  · exact (c8_blank_response_fallback true _ ("   ")).1 (by decide) _ rfl
  · exact (c8_blank_response_fallback true [] (" ok ")).2 (by decide)

/-- C9: an error raised while handling one turn is caught inside the
interactive loop, reported as an inline error line, and the loop continues
with the remaining inputs. -/
theorem c9_turn_error_caught (turn : String → Except String (String × List String))
    (s : String) (rest : List UserInput) (e : String)
    (h1 : (⟨pyStrip s.data⟩ : String) ≠ "")
    (h2 : (⟨pyLower (pyStrip s.data)⟩ : String) ∉ exitWords)
    (h3 : turn ⟨pyStrip s.data⟩ = Except.error e) :
    runLoop turn (UserInput.line s :: rest)
      = OutLine.errorLine e :: runLoop turn rest := by
  simp [runLoop, h1, h2, h3]

/-- Witness for C9: a turn function that always fails produces the inline
error line and the session would continue with an empty remainder. -/
theorem c9_turn_error_witness :
    runLoop (fun _ => Except.error ("kaput")) [UserInput.line ("go")]
      = [OutLine.errorLine ("kaput")] := by
  have h := c9_turn_error_caught (fun _ => Except.error ("kaput")) ("go") [] ("kaput")
    (by decide) (by decide) rfl
  simpa using h

/-- A rendered text matching the claimed-action pattern cannot be blank:
the pattern requires the word channel, whose characters are not
whitespace. -/
theorem claimedActionPattern_nonblank (f : String)
    (h : claimedActionPattern f = true) : (pyStrip f.data).isEmpty = false := by
  unfold claimedActionPattern at h
  simp only [Bool.and_eq_true] at h
  have hch : containsSub (('c') :: ("hannel").data) (pyLower f.data) = true := h.2
  have hc : 'c' ∈ pyLower f.data := containsSub_head_mem 'c' (("hannel").data) _ hch
  obtain ⟨c0, hc0mem, hc0low⟩ := List.mem_map.mp hc
  have hns : pySpace c0 = false := by
    have hps := pySpace_lowerChar c0
    rw [hc0low] at hps
    rw [← hps]
    decide
  have hne := pyStrip_ne_nil f.data c0 hc0mem hns
  cases hq : (pyStrip f.data).isEmpty
  · rfl
  · exact absurd (by simpa using hq) hne

/-- C1 counterexample: with no tool invoked, the invoked set is a subset of
the Task Tracker tool set and the text matches the claimed-action pattern,
yet no warning is emitted, refuting the stated equivalence. -/
theorem c1_empty_toolset_counterexample :
    (∀ t ∈ ([] : List String), t ∈ TASK_TRACKER_TOOLS) ∧
    claimedActionPattern
      (format_agent_response ("I\x27ve posted your tasks to the #general channel"))
      = true ∧
    OutLine.claimsWarning ∉
      turnOutputs ("I\x27ve posted your tasks to the #general channel")
        ([] : List String) := by
  refine ⟨by simp, by decide, by decide⟩

/-- C1 amended: the warning is emitted exactly when the invoked tool set is
nonempty and contained in the Task Tracker tool set and the rendered text
matches the claimed-action pattern; in particular the warning fires for the
posted-to-channel text with only add_task invoked, and does not fire once
send_message is also invoked. -/
theorem c1_claims_warning_characterization (response : String) (tools : List String) :
    (OutLine.claimsWarning ∈ turnOutputs response tools ↔
      (tools ≠ [] ∧ (∀ t ∈ tools, t ∈ TASK_TRACKER_TOOLS) ∧
        claimedActionPattern (format_agent_response response) = true)) ∧
    OutLine.claimsWarning ∈
      turnOutputs ("I\x27ve posted your tasks to the #general channel") [("add_task")] ∧
    OutLine.claimsWarning ∉
      turnOutputs ("I\x27ve posted your tasks to the #general channel")
        [("add_task"), ("send_message")] := by
  refine ⟨?_, by decide, by decide⟩
  unfold turnOutputs
  dsimp only
  constructor
  · intro hmem
    rcases List.mem_append.mp hmem with hA | hB
    · by_cases hblank : (pyStrip (format_agent_response response).data).isEmpty
      · rw [if_pos hblank] at hA
        simp at hA
      · rw [if_neg hblank] at hA
        simp at hA
    · by_cases hcw : claimsWarningEmitted (format_agent_response response) tools = true
      · unfold claimsWarningEmitted at hcw
        simp only [Bool.and_eq_true] at hcw
        refine ⟨?_, ?_, hcw.2⟩
        · intro hnil
          have := hcw.1.1.2
          rw [hnil] at this
          simp at this
        · intro t ht
          have hall := hcw.1.2
          rw [List.all_eq_true] at hall
          have := hall t ht
          simpa using this
      · simp only [Bool.not_eq_true] at hcw
        rw [hcw] at hB
        simp at hB
  · rintro ⟨ht1, ht2, ht3⟩
    have hcw : claimsWarningEmitted (format_agent_response response) tools = true := by
      unfold claimsWarningEmitted
      simp only [Bool.and_eq_true]
      refine ⟨⟨⟨?_, ?_⟩, ?_⟩, ht3⟩
      · rw [claimedActionPattern_nonblank _ ht3]
        rfl
      · cases tools with
        | nil => exact absurd rfl ht1
        | cons t ts => rfl
      · rw [List.all_eq_true]
        intro t ht
        simpa using ht2 t ht
    rw [hcw]
    simp

/-- C4 counterexample: a bare pair of asterisks, and a bare dash marker,
pass through the post-processor unchanged, so the output can contain bold
markers and leading list markers. -/
theorem c4_markers_survive_counterexample :
    format_agent_response ("**") = ("**") ∧
    containsSub (("**").data) ((format_agent_response ("**")).data) = true ∧
    format_agent_response ("**- a**") = ("- a") := by
  refine ⟨by decide, by decide, by decide⟩

/-- C4 amended: the post-processor is a total deterministic function that
maps the empty string to itself, and on well-formed single-line markup —
content that is nonempty, star-free, newline-free, parenthesis-free and
has non-blank ends — a bold-wrapped line renders without bold markers (the
three section keywords as their plain headers, anything else unwrapped) and
a dash or numbered list line renders as a bullet line with no leading list
marker; degenerate markup such as a bare asterisk pair may survive. -/
theorem c4_render_normalizes_wellformed (x : String) (hne : x.data ≠ [])
    (hstar : ∀ c ∈ x.data, c ≠ '*') (hnl : ∀ c ∈ x.data, c ≠ '\n')
    (hparen : ∀ c ∈ x.data, c ≠ '(')
    (hhead : pySpace (x.data.headD ' ') = false)
    (hlast : pySpace (x.data.getLastD ' ') = false) :
    format_agent_response ("") = ("") ∧
    (format_agent_response (("**") ++ x ++ ("**"))).data
      = (if x.data.map lowerChar = ("todo").data then ("Todo").data
         else if x.data.map lowerChar = ("in progress").data then ("In Progress").data
         else if x.data.map lowerChar = ("done").data then ("Done").data
         else x.data) ∧
    (format_agent_response (("- ") ++ x)).data = ("   • ").data ++ x.data ∧
    (format_agent_response (("1. ") ++ x)).data = ("   • ").data ++ x.data := by
  refine ⟨by decide, ?_, ?_, ?_⟩
  · have hdata : (("**") ++ x ++ ("**")).data = '*' :: '*' :: (x.data ++ ['*', '*']) := by
      simp [List.cons_append]
    have hmk : (("**") ++ x ++ ("**"))
        = (⟨'*' :: '*' :: (x.data ++ ['*', '*'])⟩ : String) := String.ext hdata
    have hl : ('*' :: '*' :: (x.data ++ ['*', '*'])) ≠ [] := by simp
    have hh : pySpace (('*' :: '*' :: (x.data ++ ['*', '*'])).headD ' ') = false := rfl
    have hlast2 : pySpace (('*' :: '*' :: (x.data ++ ['*', '*'])).getLastD ' ')
        = false := by
      rw [List.getLastD_cons, List.getLastD_cons]
      have hsplit : x.data ++ ['*', '*'] = (x.data ++ ['*']) ++ ['*'] := by simp
      rw [hsplit, List.getLastD_concat]
      decide
    have hnl2 : ∀ c ∈ '*' :: '*' :: (x.data ++ ['*', '*']), c ≠ '\n' := by
      have h3 := forall_mem_append3 (p := fun c => c ≠ '\n') ['*', '*'] x.data ['*', '*']
        (by decide) hnl (by decide)
      intro c hc
      apply h3
      simpa using hc
    calc (format_agent_response (("**") ++ x ++ ("**"))).data
        = (format_agent_response ⟨'*' :: '*' :: (x.data ++ ['*', '*'])⟩).data := by
          rw [hmk]
      _ = (⟨processLine ('*' :: '*' :: (x.data ++ ['*', '*']))⟩ : String).data := by
          rw [far_single_line _ hl hh hlast2 hnl2]
      _ = processLine ('*' :: '*' :: (x.data ++ ['*', '*'])) := String_data_mk _
      _ = _ := processLine_bold x.data hne hstar hparen
  · have hdata : (("- ") ++ x).data = '-' :: ' ' :: x.data := rfl
    have hmk : (("- ") ++ x) = (⟨'-' :: ' ' :: x.data⟩ : String) := String.ext hdata
    have hl : ('-' :: ' ' :: x.data) ≠ [] := by simp
    have hh : pySpace (('-' :: ' ' :: x.data).headD ' ') = false := rfl
    have hlast2 : pySpace (('-' :: ' ' :: x.data).getLastD ' ') = false := by
      rw [List.getLastD_cons, List.getLastD_cons]
      exact hlast
    have hnl2 : ∀ c ∈ '-' :: ' ' :: x.data, c ≠ '\n' := by
      have h2 := forall_mem_append2 (p := fun c => c ≠ '\n') ['-', ' '] x.data
        (by decide) hnl
      intro c hc
      apply h2
      simpa using hc
    calc (format_agent_response (("- ") ++ x)).data
        = (format_agent_response ⟨'-' :: ' ' :: x.data⟩).data := by rw [hmk]
      _ = (⟨processLine ('-' :: ' ' :: x.data)⟩ : String).data := by
          rw [far_single_line _ hl hh hlast2 hnl2]
      _ = processLine ('-' :: ' ' :: x.data) := String_data_mk _
      _ = ("   • ").data ++ x.data := processLine_dash x.data hne hstar hparen hhead
  · have hdata : (("1. ") ++ x).data = '1' :: '.' :: ' ' :: x.data := rfl
    have hmk : (("1. ") ++ x) = (⟨'1' :: '.' :: ' ' :: x.data⟩ : String) := String.ext hdata
    have hl : ('1' :: '.' :: ' ' :: x.data) ≠ [] := by simp
    have hh : pySpace (('1' :: '.' :: ' ' :: x.data).headD ' ') = false := rfl
    have hlast2 : pySpace (('1' :: '.' :: ' ' :: x.data).getLastD ' ') = false := by
      rw [List.getLastD_cons, List.getLastD_cons, List.getLastD_cons]
      exact hlast
    have hnl2 : ∀ c ∈ '1' :: '.' :: ' ' :: x.data, c ≠ '\n' := by
      have h2 := forall_mem_append2 (p := fun c => c ≠ '\n') ['1', '.', ' '] x.data
        (by decide) hnl
      intro c hc
      apply h2
      simpa using hc
    calc (format_agent_response (("1. ") ++ x)).data
        = (format_agent_response ⟨'1' :: '.' :: ' ' :: x.data⟩).data := by rw [hmk]
      _ = (⟨processLine ('1' :: '.' :: ' ' :: x.data)⟩ : String).data := by
          rw [far_single_line _ hl hh hlast2 hnl2]
      _ = processLine ('1' :: '.' :: ' ' :: x.data) := String_data_mk _
      _ = ("   • ").data ++ x.data := processLine_numbered x.data hne hstar hparen hhead

/-- Witness for C4 at concrete well-formed inputs. -/
theorem c4_render_normalizes_witness :
    format_agent_response ("") = ("") ∧
    format_agent_response ("**hello**") = ("hello") ∧
    format_agent_response ("- hello") = ("   • hello") ∧
    format_agent_response ("1. hello") = ("   • hello") := by
  have h := c4_render_normalizes_wellformed ("hello") (by decide) (by decide) (by decide)
    (by decide) (by decide) (by decide)
  obtain ⟨h0, h1, h2, h3⟩ := h
  refine ⟨h0, ?_, ?_, ?_⟩
  · rw [if_neg (by decide), if_neg (by decide), if_neg (by decide)] at h1
    have he : (("**") ++ ("hello") ++ ("**")) = ("**hello**") := by decide
    rw [he] at h1
    exact String.ext h1
  · have he : (("- ") ++ ("hello")) = ("- hello") := by decide
    rw [he] at h2
    exact String.ext h2
  · have he : (("1. ") ++ ("hello")) = ("1. hello") := by decide
    rw [he] at h3
    exact String.ext h3

end LocalMCP
